import Mathlib

/-!
# webwormhole `cmd/ww`: session establishment and terminal rendering

A shallow embedding of `newConn`, `printcode` and `fatalf` from
`cmd/ww/main.go`.  The process is modelled by explicit state passing: every
function returns the list of externally visible events it performs (writes to
the diagnostic stream, calls to the random source, the signalling service and
the channel dialer) together with the way it ends.  The collaborators
(`crypto/rand`, `wordlist`, `wormhole`, `net/url`, `rsc.io/qr`) are fields of an
environment record, so every theorem holds for all of their behaviours.

Go strings are modelled by `String`; the only separator the program splits on is the
ASCII character `-`, for which splitting bytes and splitting characters agree.  A
`[]byte` is a list of numbers, and `string(passbytes)` keeps the bytes, so the dialer
receives the byte list itself.
-/

namespace WW

/-! ## Go strings helpers -/

/-- Go `strings.Split(s, sep)` for a one-character separator, on the characters of `s`:
the pieces between consecutive separators, always at least one piece. -/
def splitChars (sep : Char) : List Char → List (List Char)
  | [] => [[]]
  | c :: cs =>
    if c = sep then [] :: splitChars sep cs
    else
      match splitChars sep cs with
      | [] => [[c]]
      | p :: ps => (c :: p) :: ps

/-- Go `strings.Join(elems, sep)` on character lists. -/
def joinChars (sep : List Char) : List (List Char) → List Char
  | [] => []
  | [w] => w
  | w :: v :: ws => w ++ sep ++ joinChars sep (v :: ws)

/-- Go `strings.Split(s, sep)` where `sep` is a single character (the only use is `"-"`). -/
def Split (s : String) (sep : Char) : List String :=
  (splitChars sep s.data).map String.mk

/-- Go `strings.Join(elems, sep)`. -/
def Join (elems : List String) (sep : String) : String :=
  String.mk (joinChars sep.data (elems.map String.data))

/-! ## Data model -/

/-- A byte slice (`[]byte`); each element stands for one byte. -/
abbrev Bytes := List Nat

/-- Unicode FULL BLOCK. -/
def fullBlock : Char := Char.ofNat 0x2588

/-- Unicode UPPER HALF BLOCK. -/
def upperHalfBlock : Char := Char.ofNat 0x2580

/-- Unicode LOWER HALF BLOCK. -/
def lowerHalfBlock : Char := Char.ofNat 0x2584

/-- Modelled from the spec: the module grid produced by the matrix encoder (`qr.Code` of
`rsc.io/qr`, not part of the sources).  The spec describes it as an immutable square boolean
matrix of side `Size`, indexed `[x][y]`, `true` meaning a marked module.  `Size` is a side
length, so the Go `int` is a natural number here. -/
structure Code where
  Size : Nat
  modules : Nat → Nat → Bool

/-- Modelled from the spec: `qrcode.Black(x, y)` of the absent matrix encoder.  Inside the
grid it reads the module; the spec says the row below an odd-sized grid is treated as an
implicit unmarked row, so a read outside the grid yields `false` and never fails. -/
def Code.Black (q : Code) (x y : Nat) : Bool :=
  decide (x < q.Size) && decide (y < q.Size) && q.modules x y

/-- The error value returned by `wormhole.New` and `wormhole.Join`: either the sentinel
`wormhole.ErrBadVersion` or any other error, carried as its `%v` text. -/
inductive SigError where
  | ErrBadVersion
  | other (text : String)
  deriving DecidableEq, Repr

/-- Externally visible actions of the process, in program order. -/
inductive Event (W : Type) where
  | stderr (s : String)
  | readFull (n : Nat)
  | wormholeNew (sigserv : String)
  | wormholeJoin (sigserv : String) (slot : String)
  | dialDataChannel (w : W) (pass : Bytes)
  deriving DecidableEq, Repr

/-- How a run ends: the function returns a value, the process exits through `os.Exit`,
or the Go runtime aborts it (a run-time panic or a fatal error: exit status 2 and no
`fatalf` message). -/
inductive Outcome (C : Type) where
  | returned (c : C)
  | exited (status : Nat)
  | panicked
  deriving DecidableEq, Repr

/-- A run: the events performed and the way it ended. -/
structure Run (W C : Type) where
  trace : List (Event W)
  outcome : Outcome C
  deriving DecidableEq, Repr

/-- The collaborators and global flags `newConn` and `printcode` depend on; their code is
not part of the sources, so they are parameters.
`W` is `*wormhole.Wormhole`, `C` is `*wormhole.DataChannel`, `U` is `*url.URL`.
* `sigserv`: the value of the `-signal` flag.
* `allocLimit`: the largest `n` for which the Go runtime can allocate `make([]byte, n)` in
  this run (the memory it can obtain).
* `ReadFull n`: `io.ReadFull(crand.Reader, buf)` on a buffer of `n` bytes: the bytes read or
  the error text.
* `New`, `JoinSession`: `wormhole.New(sigserv)` and `wormhole.Join(sigserv, slot)`.
* `Slot`: the field `w.Slot`.
* `Encode`, `Decode`: `wordlist.Encode` and the first result of `wordlist.Decode`
  (`none` is the nil slice); the second result is discarded by the caller.
* `DialDataChannel w pass`: `w.DialDataChannel(string(pass))`, giving the channel and the
  state of `w` after the dial, or the error text.
* `IsRelay`: `w.IsRelay()`.
* `Parse`, `setFragment`, `urlString`: `url.Parse`, the assignment `u.Fragment = code` and
  `u.String()`.
* `qrEncode text`: `qr.Encode(text, qr.L)`. -/
structure Env (W C U : Type) where
  sigserv : String
  allocLimit : Nat
  ReadFull : Nat → Except String Bytes
  New : String → Except SigError W
  JoinSession : String → String → Except SigError W
  Slot : W → String
  Encode : Bytes → List String
  Decode : List String → Option Bytes
  DialDataChannel : W → Bytes → Except String (C × W)
  IsRelay : W → Bool
  Parse : String → Except String U
  setFragment : U → String → U
  urlString : U → String
  qrEncode : String → Except String Code

variable {W C U : Type}

/-! ## `printcode` -/

/-- The glyph chosen by the `switch` in the inner loop of `printcode` for column `x` of the
row pair `(y, y+1)`; the first case that holds wins. -/
def glyph (q : Code) (x y : Nat) : String :=
  if q.Black x y && q.Black x (y + 1) then " "
  else if q.Black x y then "▄"
  else if q.Black x (y + 1) then "▀"
  else "█"

/-- One quiet-zone border row: `for x := 0; x < Size; x++ { "█" }` then `"████████\n"`. -/
def borderRow (q : Code) : List (Event W) :=
  (List.range q.Size).map (fun _ => Event.stderr "█") ++ [Event.stderr "████████\n"]

/-- The body of the `y` loop: `"████"`, one glyph per column, `"████\n"`. -/
def contentRow (q : Code) (y : Nat) : List (Event W) :=
  [Event.stderr "████"] ++ (List.range q.Size).map (fun x => Event.stderr (glyph q x y))
    ++ [Event.stderr "████\n"]

/-- The loop `for y := ...; y < Size; y += 2 { ... }` started at `y`, unrolled at most
`fuel` times. -/
def contentRowsFrom (q : Code) : Nat → Nat → List (Event W)
  | 0, _ => []
  | fuel + 1, y =>
    if y < q.Size then contentRow q y ++ contentRowsFrom q fuel (y + 2) else []

/-- The events of `printcode(code)`.  It writes the code line, then returns silently when
`url.Parse` or `qr.Encode` reports an error, and otherwise writes the bordered block and the
reference line.  `Size` iterations always suffice for the `y` loop
(see `contentRowsFrom_eq`). -/
def printcode (env : Env W C U) (code : String) : List (Event W) :=
  Event.stderr (code ++ "\n") ::
    match env.Parse env.sigserv with
    | .error _ => []
    | .ok u0 =>
      let u := env.setFragment u0 code
      match env.qrEncode (env.urlString u) with
      | .error _ => []
      | .ok qrcode =>
        borderRow qrcode ++ borderRow qrcode
          ++ contentRowsFrom qrcode qrcode.Size 0
          ++ borderRow qrcode ++ borderRow qrcode
          ++ [Event.stderr (env.urlString u ++ "\n")]

/-! ## `fatalf` and `newConn` -/

/-- The function `fatalf(format, v...)` after the events `pre`: write the formatted
message and a newline to the diagnostic stream, then `os.Exit(1)`. -/
def fatalf (pre : List (Event W)) (msg : String) : Run W C :=
  ⟨pre ++ [Event.stderr (msg ++ "\n")], Outcome.exited 1⟩

/-- The message of the `wormhole.ErrBadVersion` branch, as formatted by `"%s%s%s"`. -/
def badVersionMessage : String :=
  "the signalling server is running an incompatable version.\n" ++
  "try upgrading the client:\n\n" ++
  "    go get webwormhole.io/cmd/ww\n"

/-- The buffer `make([]byte, n)` after `io.ReadFull` stored `bytes` into it:
its length stays `n`. -/
def fillBuffer (n : Nat) (bytes : Bytes) : Bytes :=
  (bytes ++ List.replicate n 0).take n

/-- The tail of `newConn` shared by both branches: dial the data channel with the
password bytes, then report whether the connection is relayed. -/
def dialAndReport (env : Env W C U) (pre : List (Event W)) (w : W) (passbytes : Bytes) :
    Run W C :=
  match env.DialDataChannel w passbytes with
  | .error err => fatalf (pre ++ [Event.dialDataChannel w passbytes]) ("could not dial: " ++ err)
  | .ok (c, w1) =>
    ⟨pre ++ [Event.dialDataChannel w passbytes,
        Event.stderr (if env.IsRelay w1 then "connected: relay\n" else "connected: direct\n")],
      Outcome.returned c⟩

/-- The Go runtime's bound on the size of one allocation, `maxAlloc`, on 64-bit platforms
(`2^48` bytes; it is smaller elsewhere). -/
def maxAlloc : Nat := 281474976710656

/-- Whether `make([]byte, length)` returns a slice.  The runtime panics with
`makeslice: len out of range` when `length` is negative or exceeds `maxAlloc`, and aborts
with an out-of-memory error when it cannot obtain the memory. -/
def makeSucceeds (env : Env W C U) (length : Int) : Bool :=
  decide (0 ≤ length) && decide (length ≤ (maxAlloc : Int))
    && decide (length.toNat ≤ env.allocLimit)

/-- The function `newConn(code, length)`.  On the create path the first statement is
`make([]byte, length)`; when it does not return a slice the runtime aborts the process
before anything else happens. -/
def newConn (env : Env W C U) (code : String) (length : Int) : Run W C :=
  if code = "" then
    if makeSucceeds env length = false then ⟨[], Outcome.panicked⟩
    else
      match env.ReadFull length.toNat with
      | .error err =>
        fatalf [Event.readFull length.toNat] ("could not generate password: " ++ err)
      | .ok bytes =>
        let passbytes := fillBuffer length.toNat bytes
        let pre := [Event.readFull length.toNat, Event.wormholeNew env.sigserv]
        match env.New env.sigserv with
        | .error SigError.ErrBadVersion => fatalf pre badVersionMessage
        | .error (SigError.other err) => fatalf pre ("could not dial: " ++ err)
        | .ok w =>
          dialAndReport env
            (pre ++ printcode env (env.Slot w ++ "-" ++ Join (env.Encode passbytes) "-"))
            w passbytes
  else
    match Split code '-' with
    | [] => ⟨[], Outcome.panicked⟩
    | slot :: words =>
      match env.Decode words with
      | none => fatalf [] "could not decode password"
      | some passbytes =>
        let pre := [Event.wormholeJoin env.sigserv slot]
        match env.JoinSession env.sigserv slot with
        | .error SigError.ErrBadVersion => fatalf pre badVersionMessage
        | .error (SigError.other err) => fatalf pre ("could not dial: " ++ err)
        | .ok w => dialAndReport env pre w passbytes

/-! ## Observations on traces -/

/-- Everything written to the diagnostic stream, concatenated. -/
def stderrText : List (Event W) → String
  | [] => ""
  | Event.stderr s :: es => s ++ stderrText es
  | _ :: es => stderrText es

/-- Whether the event is a call to the channel dialer. -/
def Event.isDial : Event W → Bool
  | Event.dialDataChannel _ _ => true
  | _ => false

/-- Whether the event is a call to the signalling service. -/
def Event.isSignal : Event W → Bool
  | Event.wormholeNew _ => true
  | Event.wormholeJoin _ _ => true
  | _ => false

/-- Whether the event is a write to the diagnostic stream. -/
def Event.isWrite : Event W → Bool
  | Event.stderr _ => true
  | _ => false

/-- The lines of a text: its pieces between newline characters. -/
def lines (s : String) : List (List Char) :=
  splitChars '\n' s.data

/-! ## The rendered block, character by character -/

/-- The glyph of column `x` for the row pair `(y, y+1)`, as a character. -/
def glyphChar (q : Code) (x y : Nat) : Char :=
  match q.Black x y, q.Black x (y + 1) with
  | true, true => ' '
  | true, false => lowerHalfBlock
  | false, true => upperHalfBlock
  | false, false => fullBlock

/-- The characters of one content row, without its newline. -/
def rowChars (q : Code) (y : Nat) : List Char :=
  List.replicate 4 fullBlock ++ (List.range q.Size).map (fun x => glyphChar q x y)
    ++ List.replicate 4 fullBlock

/-- The characters of one border row, without its newline. -/
def borderChars (q : Code) : List Char := List.replicate (q.Size + 8) fullBlock

/-- Rows written one after the other, each closed by a newline. -/
def terminated (rows : List (List Char)) : List Char :=
  (rows.map (fun r => r ++ ['\n'])).flatten

/-! ## Concrete collaborators used to exercise the model -/

/-- A two-by-two grid whose only marked module is `(0, 0)`. -/
def grid2 : Code := ⟨2, fun x y => decide (x = 0) && decide (y = 0)⟩

/-- A one-by-one grid whose single module is marked. -/
def grid1 : Code := ⟨1, fun _ _ => true⟩

/-- A collaborator set in which everything succeeds: up to `65536` bytes can be allocated,
the random source yields `7, 9, ...`,
the service hands out slot `"7"`, the codec maps `7` to `"guitar"` and `9` to `"spark"`,
the dial is direct, and the matrix encoder returns `q`. -/
def okEnv (q : Code) : Env String Nat (String × String) where
  sigserv := "https://wrmhl.link/"
  allocLimit := 65536
  ReadFull := fun n => .ok ([7, 9, 7, 9].take n)
  New := fun _ => .ok "7"
  JoinSession := fun _ slot => .ok slot
  Slot := fun w => w
  Encode := fun b => b.map (fun n => if n = 7 then "guitar" else "spark")
  Decode := fun ws =>
    if ws.all (fun w => w = "guitar" || w = "spark") then
      some (ws.map (fun w => if w = "guitar" then 7 else 9))
    else none
  DialDataChannel := fun w _ => .ok (1, w)
  IsRelay := fun _ => false
  Parse := fun s => .ok (s, "")
  setFragment := fun u f => (u.1, f)
  urlString := fun u => u.1 ++ "#" ++ u.2
  qrEncode := fun _ => .ok q

/-- As `okEnv grid2`, but the secure random source fails. -/
def noRandEnv : Env String Nat (String × String) :=
  { okEnv grid2 with ReadFull := fun _ => .error "unexpected EOF" }

/-- As `okEnv grid2`, but `url.Parse` rejects the signalling address. -/
def badUrlEnv : Env String Nat (String × String) :=
  { okEnv grid2 with Parse := fun _ => .error "invalid URL" }

/-- As `okEnv grid2`, but the matrix encoder reports an error. -/
def noMatrixEnv : Env String Nat (String × String) :=
  { okEnv grid2 with qrEncode := fun _ => .error "text too long" }

/-- As `okEnv grid2`, but joining a session fails. -/
def joinFailEnv : Env String Nat (String × String) :=
  { okEnv grid2 with JoinSession := fun _ _ => .error (SigError.other "connection refused") }

/-- As `okEnv grid2`, but creating a session fails with an error whose text has two
lines (as the text of an `errors.Join` value has). -/
def twoLineErrEnv : Env String Nat (String × String) :=
  { okEnv grid2 with New := fun _ => .error (SigError.other "dial failed\nproxy failed") }

/-- As `okEnv grid2`, but the signalling service reports an incompatible version. -/
def badVersionEnv : Env String Nat (String × String) :=
  { okEnv grid2 with
    New := fun _ => .error SigError.ErrBadVersion
    JoinSession := fun _ _ => .error SigError.ErrBadVersion }

/-! ## Splitting, joining and the written text -/

theorem splitChars_ne_nil (sep : Char) (l : List Char) : splitChars sep l ≠ [] := by
  induction l with
  | nil => simp [splitChars]
  | cons c cs ih =>
    unfold splitChars
    split
    · simp
    · split <;> simp

theorem splitChars_of_not_mem (sep : Char) (l : List Char) (h : sep ∉ l) :
    splitChars sep l = [l] := by
  induction l with
  | nil => rfl
  | cons c cs ih =>
    have hc : c ≠ sep := fun e => h (by simp [e])
    have hcs : sep ∉ cs := fun e => h (by simp [e])
    simp [splitChars, hc, ih hcs]

theorem splitChars_append_sep (sep : Char) (l rest : List Char) (h : sep ∉ l) :
    splitChars sep (l ++ sep :: rest) = l :: splitChars sep rest := by
  induction l with
  | nil => simp [splitChars]
  | cons c cs ih =>
    have hc : c ≠ sep := fun e => h (by simp [e])
    have hcs : sep ∉ cs := fun e => h (by simp [e])
    simp [splitChars, hc, ih hcs]

theorem splitChars_joinChars (sep : Char) (ws : List (List Char)) (hne : ws ≠ [])
    (h : ∀ w ∈ ws, sep ∉ w) : splitChars sep (joinChars [sep] ws) = ws := by
  induction ws with
  | nil => exact absurd rfl hne
  | cons w ws ih =>
    cases ws with
    | nil => simpa [joinChars] using splitChars_of_not_mem sep w (h w (by simp))
    | cons v vs =>
      have hw : sep ∉ w := h w (by simp)
      have ih2 := ih (by simp) (fun x hx => h x (List.mem_cons_of_mem _ hx))
      simp only [joinChars, List.append_assoc, List.singleton_append]
      rw [splitChars_append_sep sep w _ hw, ih2]

theorem Split_compose (slot : String) (words : List String)
    (hslot : '-' ∉ slot.data) (hne : words ≠ []) (hwords : ∀ w ∈ words, '-' ∉ w.data) :
    Split (slot ++ "-" ++ Join words "-") '-' = slot :: words := by
  have hd : (slot ++ "-" ++ Join words "-").data
      = slot.data ++ '-' :: joinChars ['-'] (words.map String.data) := by
    simp [Join, String.data_append]
  unfold Split
  rw [hd, splitChars_append_sep _ _ _ hslot, splitChars_joinChars]
  · simp [List.map_map, Function.comp_def]
  · simpa using hne
  · intro w hw
    obtain ⟨s, hs, rfl⟩ := List.mem_map.1 hw
    exact hwords s hs

theorem glyph_eq (q : Code) (x y : Nat) : glyph q x y = String.singleton (glyphChar q x y) := by
  unfold glyph glyphChar
  cases q.Black x y <;> cases q.Black x (y + 1) <;> decide

theorem stderrText_append (a b : List (Event W)) :
    stderrText (a ++ b) = stderrText a ++ stderrText b := by
  induction a with
  | nil => simp [stderrText]
  | cons e es ih =>
    cases e <;> simp [stderrText, ih, String.append_assoc]

theorem stderrText_glyphs (f : Nat → Char) (l : List Nat) :
    (stderrText (W := W) (l.map (fun x => Event.stderr (String.singleton (f x))))).data
      = l.map f := by
  induction l with
  | nil => rfl
  | cons a l ih =>
    simp only [List.map_cons, stderrText, String.data_append, ih]
    rfl

theorem stderrText_borderRow (q : Code) :
    (stderrText (W := W) (borderRow q)).data = borderChars q ++ ['\n'] := by
  have h := stderrText_glyphs (W := W) (fun _ => fullBlock) (List.range q.Size)
  have e : ("█" : String) = String.singleton fullBlock := by decide
  have e8 : ("████████\n" : String).data = List.replicate 8 fullBlock ++ ['\n'] := by decide
  unfold borderRow borderChars
  rw [stderrText_append, String.data_append, e, h]
  simp [stderrText, e8, List.replicate_add]

theorem stderrText_contentRow (q : Code) (y : Nat) :
    (stderrText (W := W) (contentRow q y)).data = rowChars q y ++ ['\n'] := by
  have h := stderrText_glyphs (W := W) (fun x => glyphChar q x y) (List.range q.Size)
  have e4 : ("████" : String).data = List.replicate 4 fullBlock := by decide
  have e5 : ("████\n" : String).data = List.replicate 4 fullBlock ++ ['\n'] := by decide
  unfold contentRow rowChars
  simp only [glyph_eq]
  rw [stderrText_append, stderrText_append, String.data_append, String.data_append, h]
  simp [stderrText, e4, e5]

theorem contentRowsFrom_eq (q : Code) (fuel y : Nat) (h : q.Size ≤ y + 2 * fuel) :
    contentRowsFrom (W := W) q fuel y
      = ((List.range ((q.Size - y + 1) / 2)).map (fun r => contentRow q (y + 2 * r))).flatten := by
  induction fuel generalizing y with
  | zero =>
    have : (q.Size - y + 1) / 2 = 0 := by omega
    simp [contentRowsFrom, this]
  | succ n ih =>
    unfold contentRowsFrom
    by_cases hy : y < q.Size
    · have hk : (q.Size - y + 1) / 2 = (q.Size - (y + 2) + 1) / 2 + 1 := by omega
      rw [if_pos hy, ih (y + 2) (by omega), hk, List.range_succ_eq_map]
      simp only [List.map_cons, List.flatten_cons, List.map_map, Nat.mul_zero, Nat.add_zero]
      congr 3
      funext r
      simp only [Function.comp_apply]
      congr 1
      omega
    · have : (q.Size - y + 1) / 2 = 0 := by omega
      simp [hy, this]

theorem stderrText_contentRows (q : Code) :
    (stderrText (W := W) (contentRowsFrom q q.Size 0)).data
      = terminated ((List.range ((q.Size + 1) / 2)).map (fun r => rowChars q (2 * r))) := by
  rw [contentRowsFrom_eq q q.Size 0 (by omega)]
  simp only [Nat.sub_zero, Nat.zero_add]
  generalize (q.Size + 1) / 2 = k
  unfold terminated
  induction k with
  | zero => rfl
  | succ k ih =>
    simp only [List.range_succ, List.map_append, List.flatten_append, stderrText_append,
      String.data_append, ih]
    simp [stderrText_contentRow]

/-! ## The shape of the rendered block -/

theorem printcode_of_ok (env : Env W C U) (code : String) (u0 : U) (q : Code)
    (hParse : env.Parse env.sigserv = .ok u0)
    (hEnc : env.qrEncode (env.urlString (env.setFragment u0 code)) = .ok q) :
    printcode env code = Event.stderr (code ++ "\n") ::
      (borderRow q ++ borderRow q ++ contentRowsFrom q q.Size 0 ++ borderRow q ++ borderRow q
        ++ [Event.stderr (env.urlString (env.setFragment u0 code) ++ "\n")]) := by
  unfold printcode
  simp only [hParse, hEnc]

theorem printcode_of_parse_error (env : Env W C U) (code : String) (e : String)
    (hParse : env.Parse env.sigserv = .error e) :
    printcode env code = [Event.stderr (code ++ "\n")] := by
  unfold printcode
  simp only [hParse]

theorem printcode_of_encode_error (env : Env W C U) (code : String) (u0 : U) (e : String)
    (hParse : env.Parse env.sigserv = .ok u0)
    (hEnc : env.qrEncode (env.urlString (env.setFragment u0 code)) = .error e) :
    printcode env code = [Event.stderr (code ++ "\n")] := by
  unfold printcode
  simp only [hParse, hEnc]

theorem terminated_append (a b : List (List Char)) :
    terminated (a ++ b) = terminated a ++ terminated b := by
  simp [terminated]

theorem block_data (env : Env W C U) (code : String) (u0 : U) (q : Code)
    (hParse : env.Parse env.sigserv = .ok u0)
    (hEnc : env.qrEncode (env.urlString (env.setFragment u0 code)) = .ok q) :
    (stderrText ((printcode env code).drop 1)).data =
      terminated ([borderChars q, borderChars q]
        ++ (List.range ((q.Size + 1) / 2)).map (fun r => rowChars q (2 * r))
        ++ [borderChars q, borderChars q])
      ++ ((env.urlString (env.setFragment u0 code)).data ++ ['\n']) := by
  rw [printcode_of_ok env code u0 q hParse hEnc]
  simp only [List.drop_succ_cons, List.drop_zero, stderrText_append, String.data_append,
    stderrText_borderRow, stderrText_contentRows, terminated_append]
  simp [terminated, stderrText]

theorem splitChars_terminated (rows : List (List Char)) (rest : List Char)
    (h : ∀ r ∈ rows, '\n' ∉ r) :
    splitChars '\n' (terminated rows ++ rest) = rows ++ splitChars '\n' rest := by
  induction rows with
  | nil => simp [terminated]
  | cons r rs ih =>
    have hr : '\n' ∉ r := h r (by simp)
    have ih2 := ih (fun x hx => h x (List.mem_cons_of_mem _ hx))
    have e : terminated (r :: rs) ++ rest = r ++ '\n' :: (terminated rs ++ rest) := by
      simp [terminated]
    rw [e, splitChars_append_sep _ _ _ hr, ih2]
    rfl

theorem glyphChar_ne_newline (q : Code) (x y : Nat) : glyphChar q x y ≠ '\n' := by
  unfold glyphChar
  cases q.Black x y <;> cases q.Black x (y + 1) <;> decide

theorem newline_not_mem_borderChars (q : Code) : '\n' ∉ borderChars q := by
  intro h
  have := List.eq_of_mem_replicate h
  revert this
  decide

theorem newline_not_mem_rowChars (q : Code) (y : Nat) : '\n' ∉ rowChars q y := by
  intro h
  simp only [rowChars, List.mem_append, List.mem_map, List.mem_range] at h
  rcases h with (h | ⟨x, -, hx⟩) | h
  · exact absurd (List.eq_of_mem_replicate h) (by decide)
  · exact glyphChar_ne_newline q x y hx
  · exact absurd (List.eq_of_mem_replicate h) (by decide)

theorem block_lines (env : Env W C U) (code : String) (u0 : U) (q : Code)
    (hParse : env.Parse env.sigserv = .ok u0)
    (hEnc : env.qrEncode (env.urlString (env.setFragment u0 code)) = .ok q) :
    lines (stderrText ((printcode env code).drop 1)) =
      [borderChars q, borderChars q]
        ++ (List.range ((q.Size + 1) / 2)).map (fun r => rowChars q (2 * r))
        ++ [borderChars q, borderChars q]
        ++ splitChars '\n' ((env.urlString (env.setFragment u0 code)).data ++ ['\n']) := by
  unfold lines
  rw [block_data env code u0 q hParse hEnc, splitChars_terminated]
  intro r hr
  simp only [List.mem_append, List.mem_cons, List.mem_map, List.mem_range, List.mem_singleton,
    List.not_mem_nil, or_false] at hr
  rcases hr with ((h | h) | ⟨k, -, rfl⟩) | (h | h)
  · exact h ▸ newline_not_mem_borderChars q
  · exact h ▸ newline_not_mem_borderChars q
  · exact newline_not_mem_rowChars q _
  · exact h ▸ newline_not_mem_borderChars q
  · exact h ▸ newline_not_mem_borderChars q

theorem block_lines_content (env : Env W C U) (code : String) (u0 : U) (q : Code)
    (hParse : env.Parse env.sigserv = .ok u0)
    (hEnc : env.qrEncode (env.urlString (env.setFragment u0 code)) = .ok q)
    (r : Nat) (hr : r < (q.Size + 1) / 2) :
    (lines (stderrText ((printcode env code).drop 1)))[2 + r]? = some (rowChars q (2 * r)) := by
  rw [block_lines env code u0 q hParse hEnc]
  simp only [List.append_assoc, List.cons_append, List.nil_append]
  rw [show 2 + r = r + 1 + 1 by omega, List.getElem?_cons_succ, List.getElem?_cons_succ,
    List.getElem?_append_left (by simpa using hr)]
  simp [List.getElem?_map, List.getElem?_range hr]

theorem rowChars_getElem (q : Code) (y x : Nat) (hx : x < q.Size) :
    (rowChars q y)[4 + x]? = some (glyphChar q x y) := by
  unfold rowChars
  rw [List.append_assoc, List.getElem?_append_right (by simp)]
  simp only [List.length_replicate, Nat.add_sub_cancel_left]
  rw [List.getElem?_append_left (by simpa using hx)]
  simp [List.getElem?_map, List.getElem?_range hx]

theorem block_glyph (env : Env W C U) (code : String) (u0 : U) (q : Code)
    (hParse : env.Parse env.sigserv = .ok u0)
    (hEnc : env.qrEncode (env.urlString (env.setFragment u0 code)) = .ok q)
    (x y : Nat) (hy : y % 2 = 0) (hyS : y < q.Size) (hx : x < q.Size) :
    ((lines (stderrText ((printcode env code).drop 1)))[2 + y / 2]?).bind
        (fun row => row[4 + x]?) = some (glyphChar q x y) := by
  rw [block_lines_content env code u0 q hParse hEnc (y / 2) (by omega)]
  have e : 2 * (y / 2) = y := by omega
  simp only [Option.some_bind, e, rowChars_getElem q y x hx]

theorem Black_row_Size (q : Code) (x : Nat) : q.Black x q.Size = false := by
  simp [Code.Black]

theorem Black_inside (q : Code) (x y : Nat) (hx : x < q.Size) (hy : y < q.Size) :
    q.Black x y = q.modules x y := by
  simp [Code.Black, hx, hy]

/-! ## Claims about the renderer -/

/-- C1, as stated, fails: on the two-by-two grid whose only marked module is `(0, 0)`, the
pair at column 0 of rows `(0, 1)` is (marked, unmarked), and the glyph `printcode` writes at
that column of the first content row is LOWER HALF BLOCK (U+2584), not the upper-half
glyph UPPER HALF BLOCK (U+2580). -/
theorem printcode_top_only_glyph_counterexample :
    grid2.Black 0 0 = true ∧ grid2.Black 0 1 = false ∧
    ((lines (stderrText ((printcode (okEnv grid2) "7-guitar-spark").drop 1)))[2]?).bind
        (fun row => row[4]?) = some (Char.ofNat 0x2584) ∧
    ((lines (stderrText ((printcode (okEnv grid2) "7-guitar-spark").drop 1)))[2]?).bind
        (fun row => row[4]?) ≠ some (Char.ofNat 0x2580) := by
  decide

/-- C1, amended: when the locator parses and the matrix encoder returns the grid `q`, then
in the block written after the code line, for every even `y < Size` and every `x < Size`,
the glyph at column `x` of the content row of the pair `(y, y+1)` (line `2 + y/2`, position
`4 + x`) is: space when both modules are marked, LOWER HALF BLOCK when only the top one
is, UPPER HALF BLOCK when only the bottom one is, FULL BLOCK when neither is. -/
theorem printcode_glyph_rule (env : Env W C U) (code : String) (u0 : U) (q : Code)
    (hParse : env.Parse env.sigserv = .ok u0)
    (hEnc : env.qrEncode (env.urlString (env.setFragment u0 code)) = .ok q)
    (x y : Nat) (hy : y % 2 = 0) (hyS : y < q.Size) (hx : x < q.Size) :
    ((lines (stderrText ((printcode env code).drop 1)))[2 + y / 2]?).bind
        (fun row => row[4 + x]?) =
      some (match q.Black x y, q.Black x (y + 1) with
        | true, true => ' '
        | true, false => lowerHalfBlock
        | false, true => upperHalfBlock
        | false, false => fullBlock) := by
  rw [block_glyph env code u0 q hParse hEnc x y hy hyS hx]
  rfl

/-- The glyph rule at column 1 of the first row pair of `grid2`. -/
theorem printcode_glyph_rule_witness :
    ((lines (stderrText ((printcode (okEnv grid2) "7-guitar-spark").drop 1)))[2 + 0 / 2]?).bind
        (fun row => row[4 + 1]?) =
      some (match grid2.Black 1 0, grid2.Black 1 (0 + 1) with
        | true, true => ' '
        | true, false => lowerHalfBlock
        | false, true => upperHalfBlock
        | false, false => fullBlock) :=
  printcode_glyph_rule (okEnv grid2) "7-guitar-spark" ("https://wrmhl.link/", "") grid2 rfl rfl
    1 0 (by decide) (by decide) (by decide)

/-- C6: when the locator parses and the matrix encoder returns the grid `q`, the text
`printcode` writes is the code line, then two border rows, `ceil(Size/2)` content rows and
two border rows, each row closed by a newline and holding exactly `Size + 8` glyphs (border
rows are all FULL BLOCK; content rows are 4 FULL BLOCK, `Size` glyphs, 4 FULL BLOCK),
then a single line with the reference text.  For `Size = 0` there is no content row. -/
theorem printcode_block_rectangle (env : Env W C U) (code : String) (u0 : U) (q : Code)
    (hParse : env.Parse env.sigserv = .ok u0)
    (hEnc : env.qrEncode (env.urlString (env.setFragment u0 code)) = .ok q) :
    ∃ content : List (List Char),
      (stderrText (printcode env code)).data =
        code.data ++ ['\n']
          ++ terminated ([List.replicate (q.Size + 8) fullBlock,
                List.replicate (q.Size + 8) fullBlock]
              ++ content
              ++ [List.replicate (q.Size + 8) fullBlock, List.replicate (q.Size + 8) fullBlock])
          ++ ((env.urlString (env.setFragment u0 code)).data ++ ['\n'])
      ∧ content.length = (q.Size + 1) / 2
      ∧ (∀ row ∈ content, row.length = q.Size + 8 ∧ '\n' ∉ row ∧
          ∃ mid : List Char, mid.length = q.Size ∧
            row = List.replicate 4 fullBlock ++ mid ++ List.replicate 4 fullBlock)
      ∧ (q.Size = 0 → content = []) := by
  refine ⟨(List.range ((q.Size + 1) / 2)).map (fun r => rowChars q (2 * r)), ?_, by simp, ?_, ?_⟩
  · have h := block_data env code u0 q hParse hEnc
    have hp : printcode env code
        = Event.stderr (code ++ "\n") :: (printcode env code).drop 1 := by
      rw [printcode_of_ok env code u0 q hParse hEnc]; rfl
    rw [hp]
    simp only [stderrText, String.data_append, h]
    simp [borderChars]
  · intro row hrow
    obtain ⟨r, -, rfl⟩ := List.mem_map.1 hrow
    refine ⟨by simp [rowChars], newline_not_mem_rowChars q _, ?_⟩
    exact ⟨(List.range q.Size).map (fun x => glyphChar q x (2 * r)), by simp, rfl⟩
  · intro h0
    simp [h0]

/-- The rectangle shape for the two-by-two grid `grid2`. -/
theorem printcode_block_rectangle_witness :
    ∃ content : List (List Char),
      (stderrText (printcode (okEnv grid2) "7-guitar-spark")).data =
        "7-guitar-spark".data ++ ['\n']
          ++ terminated ([List.replicate (grid2.Size + 8) fullBlock,
                List.replicate (grid2.Size + 8) fullBlock]
              ++ content
              ++ [List.replicate (grid2.Size + 8) fullBlock,
                List.replicate (grid2.Size + 8) fullBlock])
          ++ ("https://wrmhl.link/#7-guitar-spark".data ++ ['\n'])
      ∧ content.length = (grid2.Size + 1) / 2
      ∧ (∀ row ∈ content, row.length = grid2.Size + 8 ∧ '\n' ∉ row ∧
          ∃ mid : List Char, mid.length = grid2.Size ∧
            row = List.replicate 4 fullBlock ++ mid ++ List.replicate 4 fullBlock)
      ∧ (grid2.Size = 0 → content = []) :=
  printcode_block_rectangle (okEnv grid2) "7-guitar-spark" ("https://wrmhl.link/", "") grid2
    rfl rfl

/-- C10: for a grid of odd side, reading the module below the last row never fails and
gives unmarked, and the last content row (the pair `(Size-1, Size)`, line `2 + (Size-1)/2`
of the block) shows at column `x` the top-only glyph (LOWER HALF BLOCK) where module
`(x, Size-1)` is marked and FULL BLOCK where it is not, never the both-marked space nor the
bottom-only glyph.  A one-by-one grid with its module marked yields exactly one content
row, whose single content glyph is the top-only glyph. -/
theorem printcode_odd_last_row (env : Env W C U) (code : String) (u0 : U) (q : Code)
    (hParse : env.Parse env.sigserv = .ok u0)
    (hEnc : env.qrEncode (env.urlString (env.setFragment u0 code)) = .ok q)
    (hodd : q.Size % 2 = 1) :
    (∀ x, x < q.Size →
      q.Black x q.Size = false ∧
      ((lines (stderrText ((printcode env code).drop 1)))[2 + (q.Size - 1) / 2]?).bind
          (fun row => row[4 + x]?)
        = some (if q.modules x (q.Size - 1) = true then lowerHalfBlock else fullBlock) ∧
      ((lines (stderrText ((printcode env code).drop 1)))[2 + (q.Size - 1) / 2]?).bind
          (fun row => row[4 + x]?) ≠ some ' ' ∧
      ((lines (stderrText ((printcode env code).drop 1)))[2 + (q.Size - 1) / 2]?).bind
          (fun row => row[4 + x]?) ≠ some upperHalfBlock) ∧
    (q.Size = 1 → q.modules 0 0 = true →
      lines (stderrText ((printcode env code).drop 1)) =
        [List.replicate 9 fullBlock, List.replicate 9 fullBlock,
          List.replicate 4 fullBlock ++ [lowerHalfBlock] ++ List.replicate 4 fullBlock,
          List.replicate 9 fullBlock, List.replicate 9 fullBlock]
        ++ splitChars '\n' ((env.urlString (env.setFragment u0 code)).data ++ ['\n'])) := by
  constructor
  · intro x hx
    have hg := block_glyph env code u0 q hParse hEnc x (q.Size - 1) (by omega) (by omega) hx
    have hS : q.Size - 1 + 1 = q.Size := by omega
    have hc : glyphChar q x (q.Size - 1)
        = if q.modules x (q.Size - 1) = true then lowerHalfBlock else fullBlock := by
      unfold glyphChar
      rw [hS, Black_row_Size, Black_inside q x (q.Size - 1) hx (by omega)]
      cases q.modules x (q.Size - 1) <;> rfl
    rw [hg, hc]
    refine ⟨Black_row_Size q x, rfl, ?_, ?_⟩
    · cases q.modules x (q.Size - 1) <;> decide
    · cases q.modules x (q.Size - 1) <;> decide
  · intro h1 hm
    rw [block_lines env code u0 q hParse hEnc]
    have hr : rowChars q 0
        = List.replicate 4 fullBlock ++ [lowerHalfBlock] ++ List.replicate 4 fullBlock := by
      simp [rowChars, glyphChar, Code.Black, h1, hm, List.range_succ]
    simp [h1, borderChars, hr, List.range_succ]

/-- The last-row rule for the one-by-one grid `grid1`. -/
theorem printcode_odd_last_row_witness :
    grid1.Size % 2 = 1 ∧ grid1.Size = 1 ∧ grid1.modules 0 0 = true ∧
    lines (stderrText ((printcode (okEnv grid1) "7-guitar-spark").drop 1)) =
        [List.replicate 9 fullBlock, List.replicate 9 fullBlock,
          List.replicate 4 fullBlock ++ [lowerHalfBlock] ++ List.replicate 4 fullBlock,
          List.replicate 9 fullBlock, List.replicate 9 fullBlock]
        ++ splitChars '\n' ("https://wrmhl.link/#7-guitar-spark".data ++ ['\n']) :=
  ⟨rfl, rfl, rfl,
    (printcode_odd_last_row (okEnv grid1) "7-guitar-spark" ("https://wrmhl.link/", "") grid1
      rfl rfl rfl).2 rfl rfl⟩

/-! ## Unfolding `newConn` along each path -/

theorem fillBuffer_of_length (b : Bytes) : fillBuffer b.length b = b := by
  simp [fillBuffer]

theorem fillBuffer_length (n : Nat) (b : Bytes) : (fillBuffer n b).length = n := by
  simp [fillBuffer]

theorem Split_ne_nil (s : String) (sep : Char) : Split s sep ≠ [] := by
  simp [Split, splitChars_ne_nil]

theorem newConn_create_read_error (env : Env W C U) (length : Int)
    (hmake : makeSucceeds env length = true)
    (e : String) (hread : env.ReadFull length.toNat = .error e) :
    newConn env "" length
      = fatalf [Event.readFull length.toNat] ("could not generate password: " ++ e) := by
  have hl : ¬ makeSucceeds env length = false := by simp [hmake]
  simp only [newConn, if_true, if_neg hl, hread]

theorem newConn_create_bad_version (env : Env W C U) (length : Int)
    (hmake : makeSucceeds env length = true)
    (bytes : Bytes) (hread : env.ReadFull length.toNat = .ok bytes)
    (hnew : env.New env.sigserv = .error SigError.ErrBadVersion) :
    newConn env "" length
      = fatalf [Event.readFull length.toNat, Event.wormholeNew env.sigserv]
          badVersionMessage := by
  have hl : ¬ makeSucceeds env length = false := by simp [hmake]
  simp only [newConn, if_true, if_neg hl, hread, hnew]

theorem newConn_create_new_error (env : Env W C U) (length : Int)
    (hmake : makeSucceeds env length = true)
    (bytes : Bytes) (hread : env.ReadFull length.toNat = .ok bytes) (e : String)
    (hnew : env.New env.sigserv = .error (SigError.other e)) :
    newConn env "" length
      = fatalf [Event.readFull length.toNat, Event.wormholeNew env.sigserv]
          ("could not dial: " ++ e) := by
  have hl : ¬ makeSucceeds env length = false := by simp [hmake]
  simp only [newConn, if_true, if_neg hl, hread, hnew]

theorem newConn_create_new_ok (env : Env W C U) (length : Int)
    (hmake : makeSucceeds env length = true)
    (bytes : Bytes) (hread : env.ReadFull length.toNat = .ok bytes) (w : W)
    (hnew : env.New env.sigserv = .ok w) :
    newConn env "" length
      = dialAndReport env
          ([Event.readFull length.toNat, Event.wormholeNew env.sigserv]
            ++ printcode env (env.Slot w ++ "-"
                ++ Join (env.Encode (fillBuffer length.toNat bytes)) "-"))
          w (fillBuffer length.toNat bytes) := by
  have hl : ¬ makeSucceeds env length = false := by simp [hmake]
  simp only [newConn, if_true, if_neg hl, hread, hnew]

theorem newConn_join_decode_nil (env : Env W C U) (code : String) (length : Int)
    (hcode : code ≠ "") (slot : String) (words : List String)
    (hsplit : Split code '-' = slot :: words) (hdec : env.Decode words = none) :
    newConn env code length = fatalf [] "could not decode password" := by
  simp only [newConn, if_neg hcode, hsplit, hdec]

theorem newConn_join_bad_version (env : Env W C U) (code : String) (length : Int)
    (hcode : code ≠ "") (slot : String) (words : List String)
    (hsplit : Split code '-' = slot :: words) (pass : Bytes)
    (hdec : env.Decode words = some pass)
    (hjoin : env.JoinSession env.sigserv slot = .error SigError.ErrBadVersion) :
    newConn env code length
      = fatalf [Event.wormholeJoin env.sigserv slot] badVersionMessage := by
  simp only [newConn, if_neg hcode, hsplit, hdec, hjoin]

theorem newConn_join_join_error (env : Env W C U) (code : String) (length : Int)
    (hcode : code ≠ "") (slot : String) (words : List String)
    (hsplit : Split code '-' = slot :: words) (pass : Bytes)
    (hdec : env.Decode words = some pass) (e : String)
    (hjoin : env.JoinSession env.sigserv slot = .error (SigError.other e)) :
    newConn env code length
      = fatalf [Event.wormholeJoin env.sigserv slot] ("could not dial: " ++ e) := by
  simp only [newConn, if_neg hcode, hsplit, hdec, hjoin]

theorem newConn_join_join_ok (env : Env W C U) (code : String) (length : Int)
    (hcode : code ≠ "") (slot : String) (words : List String)
    (hsplit : Split code '-' = slot :: words) (pass : Bytes)
    (hdec : env.Decode words = some pass) (w : W)
    (hjoin : env.JoinSession env.sigserv slot = .ok w) :
    newConn env code length
      = dialAndReport env [Event.wormholeJoin env.sigserv slot] w pass := by
  simp only [newConn, if_neg hcode, hsplit, hdec, hjoin]

theorem dialAndReport_error (env : Env W C U) (pre : List (Event W)) (w : W) (pass : Bytes)
    (e : String) (hdial : env.DialDataChannel w pass = .error e) :
    dialAndReport env pre w pass
      = ⟨pre ++ [Event.dialDataChannel w pass, Event.stderr ("could not dial: " ++ e ++ "\n")],
          Outcome.exited 1⟩ := by
  simp [dialAndReport, hdial, fatalf]

theorem dialAndReport_ok (env : Env W C U) (pre : List (Event W)) (w : W) (pass : Bytes)
    (c : C) (w1 : W) (hdial : env.DialDataChannel w pass = .ok (c, w1)) :
    dialAndReport env pre w pass
      = ⟨pre ++ [Event.dialDataChannel w pass,
            Event.stderr (if env.IsRelay w1 then "connected: relay\n"
              else "connected: direct\n")],
          Outcome.returned c⟩ := by
  simp [dialAndReport, hdial]

theorem dialAndReport_trace (env : Env W C U) (pre : List (Event W)) (w : W) (pass : Bytes) :
    ∃ s, (dialAndReport env pre w pass).trace
      = pre ++ [Event.dialDataChannel w pass, Event.stderr s] := by
  unfold dialAndReport
  split
  · rename_i err _
    exact ⟨"could not dial: " ++ err ++ "\n", by simp [fatalf]⟩
  · exact ⟨_, rfl⟩

theorem printcode_all_writes (env : Env W C U) (code : String) :
    ∀ e ∈ printcode env code, e.isWrite = true := by
  have hb : ∀ q : Code, ∀ e ∈ borderRow (W := W) q, e.isWrite = true := by
    intro q e he
    simp only [borderRow, List.mem_append, List.mem_map, List.mem_singleton] at he
    rcases he with ⟨_, -, rfl⟩ | rfl <;> rfl
  have hc : ∀ (q : Code) (fuel y : Nat), ∀ e ∈ contentRowsFrom (W := W) q fuel y,
      e.isWrite = true := by
    intro q fuel
    induction fuel with
    | zero => intro y e he; simp [contentRowsFrom] at he
    | succ n ih =>
      intro y e he
      unfold contentRowsFrom at he
      split at he
      · simp only [contentRow, List.mem_append, List.mem_map, List.mem_singleton] at he
        rcases he with ((rfl | ⟨_, -, rfl⟩) | rfl) | he
        · rfl
        · rfl
        · rfl
        · exact ih _ e he
      · simp at he
  intro e he
  unfold printcode at he
  rcases List.mem_cons.1 he with rfl | he
  · rfl
  · split at he
    · simp at he
    · simp only at he
      split at he
      · simp at he
      · simp only [List.mem_append, List.mem_singleton] at he
        rcases he with ((((he | he) | he) | he) | he) | rfl
        · exact hb _ e he
        · exact hb _ e he
        · exact hc _ _ _ e he
        · exact hb _ e he
        · exact hb _ e he
        · rfl

theorem isDial_of_isWrite (e : Event W) (h : e.isWrite = true) : e.isDial = false := by
  cases e <;> simp_all [Event.isWrite, Event.isDial]

/-! ## Claims about the pairing code -/

/-- C2, as stated, fails: composing and splitting does not recover the parts when the
session identifier contains `-`, when the token sequence is empty, or when a token
contains `-`. -/
theorem pairing_code_roundtrip_counterexample :
    Split ("7-8" ++ "-" ++ Join ["guitar"] "-") '-' = ["7", "8", "guitar"] ∧
    Split ("7-8" ++ "-" ++ Join ["guitar"] "-") '-' ≠ "7-8" :: ["guitar"] ∧
    Split ("7" ++ "-" ++ Join [] "-") '-' = ["7", ""] ∧
    Split ("7" ++ "-" ++ Join [] "-") '-' ≠ "7" :: [] ∧
    Split ("7" ++ "-" ++ Join ["gui-tar"] "-") '-' = ["7", "gui", "tar"] ∧
    Split ("7" ++ "-" ++ Join ["gui-tar"] "-") '-' ≠ "7" :: ["gui-tar"] := by
  decide

/-- C2, amended: for every session identifier without `-` and every non-empty token
sequence whose tokens contain no `-`, splitting the composed pairing code
`identifier + "-" + tokens joined by "-"` on `-` gives the identifier as first token and
exactly the original tokens as the rest. -/
theorem pairing_code_roundtrip (slot : String) (words : List String)
    (hslot : '-' ∉ slot.data) (hne : words ≠ []) (hwords : ∀ w ∈ words, '-' ∉ w.data) :
    Split (slot ++ "-" ++ Join words "-") '-' = slot :: words :=
  Split_compose slot words hslot hne hwords

/-- The round trip of the code `7-guitar-spark`. -/
theorem pairing_code_roundtrip_witness :
    '-' ∉ "7".data ∧ ["guitar", "spark"] ≠ [] ∧
    (∀ w ∈ ["guitar", "spark"], '-' ∉ w.data) ∧
    Split ("7" ++ "-" ++ Join ["guitar", "spark"] "-") '-' = "7" :: ["guitar", "spark"] :=
  ⟨by decide, by decide, by decide,
    pairing_code_roundtrip "7" ["guitar", "spark"] (by decide) (by decide) (by decide)⟩

theorem fatalf_no_dial (pre : List (Event W)) (msg : String)
    (h : ∀ e ∈ pre, e.isDial = false) :
    ∀ e ∈ (fatalf (C := C) pre msg).trace, e.isDial = false := by
  intro e he
  simp only [fatalf, List.mem_append, List.mem_singleton] at he
  rcases he with he | rfl
  · exact h e he
  · rfl

theorem fatalf_trace_no_dial (pre : List (Event W)) (msg : String) (w : W) (p : Bytes)
    (h : ∀ e ∈ pre, e.isDial = false)
    (hm : Event.dialDataChannel w p ∈ (fatalf (C := C) pre msg).trace) : False := by
  have := fatalf_no_dial (C := C) pre msg h _ hm
  simp [Event.isDial] at this

theorem composed_code_ne_empty (slot rest : String) : slot ++ "-" ++ rest ≠ "" := by
  intro h
  have := congrArg String.length h
  simp only [String.length_append] at this
  have h1 : ("-" : String).length = 1 := by decide
  have h0 : ("" : String).length = 0 := by decide
  omega

/-- C3, as stated, fails: the codec round trip holds, the words of the secret `7, 9` are
a non-empty list of `-`-free words, the slot `7` has no `-`, and the create side prints
`7-guitar-spark` and dials with `7, 9`; yet the join side run on that code never reaches
the dialer, because the signalling join reports an error and the process exits. -/
theorem join_error_no_dial_counterexample :
    joinFailEnv.Decode ((okEnv grid2).Encode [7, 9]) = some [7, 9] ∧
    (okEnv grid2).Encode [7, 9] = ["guitar", "spark"] ∧
    '-' ∉ ((okEnv grid2).Slot "7").data ∧
    (∀ word ∈ (okEnv grid2).Encode [7, 9], '-' ∉ word.data) ∧
    (newConn (okEnv grid2) "" 2).trace.take 3 =
      [Event.readFull 2, Event.wormholeNew "https://wrmhl.link/",
        Event.stderr "7-guitar-spark\n"] ∧
    Event.dialDataChannel "7" [7, 9] ∈ (newConn (okEnv grid2) "" 2).trace ∧
    newConn joinFailEnv "7-guitar-spark" 2 =
      ⟨[Event.wormholeJoin "https://wrmhl.link/" "7",
          Event.stderr "could not dial: connection refused\n"],
        Outcome.exited 1⟩ := by
  decide

/-- C3, amended: let the create side allocate its buffer, draw the secret `b` and obtain
a wormhole `w` whose slot has no `-`, and let the join side decode the words of `b` back
to `b`, these words being a non-empty list of `-`-free words.  Then the create side
prints the code `Slot + "-" + words joined by "-"` and dials with the bytes `b`, and the
join side run on that code calls the signalling join for the session `Slot`; every dial
it makes carries exactly the bytes `b`; when the join succeeds with wormhole `w2` it dials
`w2` with `b`; and when the join reports an error it exits with status 1 without
dialling. -/
theorem join_agrees_with_create {W2 C2 U2 : Type} (envA : Env W C U) (envB : Env W2 C2 U2)
    (b : Bytes) (w : W) (lengthB : Int)
    (hmake : makeSucceeds envA (b.length : Int) = true)
    (hread : envA.ReadFull b.length = .ok b)
    (hnew : envA.New envA.sigserv = .ok w)
    (hslot : '-' ∉ (envA.Slot w).data)
    (hcodec : envB.Decode (envA.Encode b) = some b)
    (hne : envA.Encode b ≠ [])
    (hwords : ∀ word ∈ envA.Encode b, '-' ∉ word.data) :
    (∃ rest, (newConn envA "" (b.length : Int)).trace =
        [Event.readFull b.length, Event.wormholeNew envA.sigserv]
          ++ printcode envA (envA.Slot w ++ "-" ++ Join (envA.Encode b) "-")
          ++ Event.dialDataChannel w b :: rest) ∧
    (∃ rest, (newConn envB (envA.Slot w ++ "-" ++ Join (envA.Encode b) "-") lengthB).trace =
        Event.wormholeJoin envB.sigserv (envA.Slot w) :: rest) ∧
    (∀ w2 p, Event.dialDataChannel w2 p
        ∈ (newConn envB (envA.Slot w ++ "-" ++ Join (envA.Encode b) "-") lengthB).trace →
      p = b) ∧
    (∀ w2, envB.JoinSession envB.sigserv (envA.Slot w) = .ok w2 →
      ∃ rest, (newConn envB (envA.Slot w ++ "-" ++ Join (envA.Encode b) "-") lengthB).trace =
        Event.wormholeJoin envB.sigserv (envA.Slot w) :: Event.dialDataChannel w2 b :: rest) ∧
    (∀ err, envB.JoinSession envB.sigserv (envA.Slot w) = .error err →
      (newConn envB (envA.Slot w ++ "-" ++ Join (envA.Encode b) "-") lengthB).outcome
        = Outcome.exited 1 ∧
      ∀ e ∈ (newConn envB (envA.Slot w ++ "-" ++ Join (envA.Encode b) "-") lengthB).trace,
        e.isDial = false) := by
  have hsplit := Split_compose (envA.Slot w) (envA.Encode b) hslot hne hwords
  have hcode := composed_code_ne_empty (envA.Slot w) (Join (envA.Encode b) "-")
  have hpre : ∀ e ∈ [Event.wormholeJoin (W := W2) envB.sigserv (envA.Slot w)],
      e.isDial = false := by
    intro e he
    simp only [List.mem_singleton] at he
    subst he
    rfl
  have hok : ∀ w2, envB.JoinSession envB.sigserv (envA.Slot w) = .ok w2 →
      ∃ s, (newConn envB (envA.Slot w ++ "-" ++ Join (envA.Encode b) "-") lengthB).trace =
        [Event.wormholeJoin envB.sigserv (envA.Slot w), Event.dialDataChannel w2 b,
          Event.stderr s] := by
    intro w2 hjoin
    rw [newConn_join_join_ok envB _ lengthB hcode _ _ hsplit b hcodec w2 hjoin]
    exact dialAndReport_trace envB _ w2 b
  have herr : ∀ err, envB.JoinSession envB.sigserv (envA.Slot w) = .error err →
      ∃ msg, newConn envB (envA.Slot w ++ "-" ++ Join (envA.Encode b) "-") lengthB =
        fatalf [Event.wormholeJoin envB.sigserv (envA.Slot w)] msg := by
    intro err hjoin
    cases err with
    | ErrBadVersion =>
      exact ⟨_, newConn_join_bad_version envB _ lengthB hcode _ _ hsplit b hcodec hjoin⟩
    | other text =>
      exact ⟨_, newConn_join_join_error envB _ lengthB hcode _ _ hsplit b hcodec text hjoin⟩
  refine ⟨?_, ?_, ?_, ?_, ?_⟩
  · have hr : envA.ReadFull ((b.length : Int)).toNat = .ok b := by simpa using hread
    rw [newConn_create_new_ok envA (b.length : Int) hmake b hr w hnew]
    simp only [Int.toNat_ofNat, fillBuffer_of_length]
    obtain ⟨s, hs⟩ := dialAndReport_trace envA
      ([Event.readFull b.length, Event.wormholeNew envA.sigserv]
        ++ printcode envA (envA.Slot w ++ "-" ++ Join (envA.Encode b) "-")) w b
    exact ⟨[Event.stderr s], hs.trans (by simp)⟩
  · cases hjoin : envB.JoinSession envB.sigserv (envA.Slot w) with
    | error err =>
      obtain ⟨msg, h⟩ := herr err hjoin
      exact ⟨_, by rw [h]; rfl⟩
    | ok w2 =>
      obtain ⟨s, h⟩ := hok w2 hjoin
      exact ⟨_, h⟩
  · intro w2 p hm
    cases hjoin : envB.JoinSession envB.sigserv (envA.Slot w) with
    | error err =>
      obtain ⟨msg, h⟩ := herr err hjoin
      rw [h] at hm
      exact (fatalf_trace_no_dial _ _ w2 p hpre hm).elim
    | ok w3 =>
      obtain ⟨s, h⟩ := hok w3 hjoin
      rw [h] at hm
      simp only [List.mem_cons, List.mem_singleton, List.not_mem_nil, or_false,
        Event.dialDataChannel.injEq, reduceCtorEq, false_or] at hm
      exact hm.2
  · intro w2 hjoin
    obtain ⟨s, h⟩ := hok w2 hjoin
    exact ⟨[Event.stderr s], h⟩
  · intro err hjoin
    obtain ⟨msg, h⟩ := herr err hjoin
    rw [h]
    exact ⟨rfl, fatalf_no_dial _ _ hpre⟩

/-- Both sides agree for secret `7, 9`, slot `7` and words `guitar`, `spark`: the join side
dials the joined wormhole with `7, 9`. -/
theorem join_agrees_with_create_witness :
    ∃ rest, (newConn (okEnv grid1)
          ((okEnv grid2).Slot "7" ++ "-" ++ Join ((okEnv grid2).Encode [7, 9]) "-") 0).trace =
        Event.wormholeJoin (okEnv grid1).sigserv ((okEnv grid2).Slot "7")
          :: Event.dialDataChannel "7" [7, 9] :: rest :=
  (join_agrees_with_create (okEnv grid2) (okEnv grid1) [7, 9] "7" 0
    (by decide) rfl rfl (by decide) (by decide) (by decide) (by decide)).2.2.2.1 "7" rfl

/-! ## Claims about session establishment -/

theorem Split_cons (code : String) :
    Split code '-' = (Split code '-').headD "" :: (Split code '-').tail := by
  cases h : Split code '-' with
  | nil => exact absurd h (Split_ne_nil code '-')
  | cons a l => rfl

/-- C4: when obtaining the secret fails, `newConn` exits with status 1 before any network
call.  On the join path (non-empty code), if `wordlist.Decode` rejects the words after the
first `-` (nil result), the only output is `could not decode password` and neither the
signalling service nor the dialer is called.  On the create path (empty code), if the
secure random source fails with error `err` (it is read exactly when the buffer could be
allocated, see `readFull_mem_iff`), the only output is `could not generate password: err`
and neither the signalling service nor the dialer is called. -/
theorem secret_failure_stops_before_network (env : Env W C U) (code : String) (length : Int) :
    (code ≠ "" → env.Decode (Split code '-').tail = none →
      (newConn env code length).outcome = Outcome.exited 1 ∧
      stderrText (newConn env code length).trace = "could not decode password\n" ∧
      ∀ e ∈ (newConn env code length).trace, e.isSignal = false ∧ e.isDial = false) ∧
    (code = "" → makeSucceeds env length = true →
      ∀ err, env.ReadFull length.toNat = .error err →
      (newConn env code length).outcome = Outcome.exited 1 ∧
      stderrText (newConn env code length).trace
        = "could not generate password: " ++ err ++ "\n" ∧
      ∀ e ∈ (newConn env code length).trace, e.isSignal = false ∧ e.isDial = false) := by
  constructor
  · intro hcode hdec
    rw [newConn_join_decode_nil env code length hcode _ _ (Split_cons code) hdec]
    refine ⟨rfl, ?_, ?_⟩
    · simp [fatalf, stderrText]
    · intro e he
      simp only [fatalf, List.nil_append, List.mem_singleton] at he
      subst he
      exact ⟨rfl, rfl⟩
  · intro hcode hmake err hread
    subst hcode
    rw [newConn_create_read_error env length hmake err hread]
    refine ⟨rfl, ?_, ?_⟩
    · simp [fatalf, stderrText]
    · intro e he
      simp only [fatalf, List.singleton_append, List.mem_cons, List.mem_singleton,
        List.not_mem_nil, or_false] at he
      rcases he with rfl | rfl <;> exact ⟨rfl, rfl⟩

/-- A code with an unknown word on the join path, and a failing random source on the
create path: both runs stop before any network call. -/
theorem secret_failure_stops_before_network_witness :
    ((newConn (okEnv grid2) "7-guitar-spar" 2).outcome = Outcome.exited 1 ∧
      stderrText (newConn (okEnv grid2) "7-guitar-spar" 2).trace
        = "could not decode password\n" ∧
      ∀ e ∈ (newConn (okEnv grid2) "7-guitar-spar" 2).trace,
        e.isSignal = false ∧ e.isDial = false) ∧
    ((newConn noRandEnv "" 2).outcome = Outcome.exited 1 ∧
      stderrText (newConn noRandEnv "" 2).trace
        = "could not generate password: " ++ "unexpected EOF" ++ "\n" ∧
      ∀ e ∈ (newConn noRandEnv "" 2).trace, e.isSignal = false ∧ e.isDial = false) :=
  ⟨(secret_failure_stops_before_network (okEnv grid2) "7-guitar-spar" 2).1
      (by decide) (by decide),
    (secret_failure_stops_before_network noRandEnv "" 2).2 rfl (by decide)
      "unexpected EOF" rfl⟩

theorem dialAndReport_mem (env : Env W C U) (pre : List (Event W)) (w : W) (pass : Bytes) :
    Event.dialDataChannel w pass ∈ (dialAndReport env pre w pass).trace := by
  obtain ⟨s, hs⟩ := dialAndReport_trace env pre w pass
  rw [hs]
  simp

/-- C5: on both paths the result of the signalling call is classified the same way.  With
the secret obtained (on the create path: the buffer allocated and filled by the random
source; on the join path: the words decoded), if the service reports `ErrBadVersion` the process writes the
incompatible-version message with its upgrade hint and exits with status 1; if it reports
any other error `err` it writes `could not dial: err` and exits with status 1; in both
cases the dialer is never called.  If the service reports no error, the dialer is called
with the wormhole and the secret. -/
theorem signalling_result_classified (env : Env W C U) (code : String) (length : Int) :
    (code = "" → makeSucceeds env length = true →
      ∀ bytes, env.ReadFull length.toNat = .ok bytes →
      (env.New env.sigserv = .error SigError.ErrBadVersion →
        (newConn env code length).outcome = Outcome.exited 1 ∧
        stderrText (newConn env code length).trace =
          "the signalling server is running an incompatable version.\ntry upgrading the client:\n\n    go get webwormhole.io/cmd/ww\n\n" ∧
        ∀ e ∈ (newConn env code length).trace, e.isDial = false) ∧
      (∀ err, env.New env.sigserv = .error (SigError.other err) →
        (newConn env code length).outcome = Outcome.exited 1 ∧
        stderrText (newConn env code length).trace = "could not dial: " ++ err ++ "\n" ∧
        ∀ e ∈ (newConn env code length).trace, e.isDial = false) ∧
      (∀ w, env.New env.sigserv = .ok w →
        Event.dialDataChannel w (fillBuffer length.toNat bytes)
          ∈ (newConn env code length).trace)) ∧
    (code ≠ "" → ∀ pass, env.Decode (Split code '-').tail = some pass →
      (env.JoinSession env.sigserv ((Split code '-').headD "") = .error SigError.ErrBadVersion →
        (newConn env code length).outcome = Outcome.exited 1 ∧
        stderrText (newConn env code length).trace =
          "the signalling server is running an incompatable version.\ntry upgrading the client:\n\n    go get webwormhole.io/cmd/ww\n\n" ∧
        ∀ e ∈ (newConn env code length).trace, e.isDial = false) ∧
      (∀ err, env.JoinSession env.sigserv ((Split code '-').headD "")
          = .error (SigError.other err) →
        (newConn env code length).outcome = Outcome.exited 1 ∧
        stderrText (newConn env code length).trace = "could not dial: " ++ err ++ "\n" ∧
        ∀ e ∈ (newConn env code length).trace, e.isDial = false) ∧
      (∀ w, env.JoinSession env.sigserv ((Split code '-').headD "") = .ok w →
        Event.dialDataChannel w pass ∈ (newConn env code length).trace)) := by
  have hmsg : badVersionMessage ++ "\n" =
      "the signalling server is running an incompatable version.\ntry upgrading the client:\n\n    go get webwormhole.io/cmd/ww\n\n" := by
    decide
  constructor
  · intro hcode hmake bytes hread
    subst hcode
    refine ⟨?_, ?_, ?_⟩
    · intro hnew
      rw [newConn_create_bad_version env length hmake bytes hread hnew]
      refine ⟨rfl, ?_, fatalf_no_dial _ _ ?_⟩
      · simp [fatalf, stderrText, hmsg]
      · intro e he
        simp only [List.mem_cons, List.mem_singleton, List.not_mem_nil, or_false] at he
        rcases he with rfl | rfl <;> rfl
    · intro err hnew
      rw [newConn_create_new_error env length hmake bytes hread err hnew]
      refine ⟨rfl, ?_, fatalf_no_dial _ _ ?_⟩
      · simp [fatalf, stderrText]
      · intro e he
        simp only [List.mem_cons, List.mem_singleton, List.not_mem_nil, or_false] at he
        rcases he with rfl | rfl <;> rfl
    · intro w hnew
      rw [newConn_create_new_ok env length hmake bytes hread w hnew]
      exact dialAndReport_mem _ _ _ _
  · intro hcode pass hdec
    refine ⟨?_, ?_, ?_⟩
    · intro hjoin
      rw [newConn_join_bad_version env code length hcode _ _ (Split_cons code) pass hdec hjoin]
      refine ⟨rfl, ?_, fatalf_no_dial _ _ ?_⟩
      · simp [fatalf, stderrText, hmsg]
      · intro e he
        simp only [List.mem_singleton] at he
        subst he
        rfl
    · intro err hjoin
      rw [newConn_join_join_error env code length hcode _ _ (Split_cons code) pass hdec err
        hjoin]
      refine ⟨rfl, ?_, fatalf_no_dial _ _ ?_⟩
      · simp [fatalf, stderrText]
      · intro e he
        simp only [List.mem_singleton] at he
        subst he
        rfl
    · intro w hjoin
      rw [newConn_join_join_ok env code length hcode _ _ (Split_cons code) pass hdec w hjoin]
      exact dialAndReport_mem _ _ _ _

/-- An incompatible service on the create path and on the join path, and a compatible one
on the create path. -/
theorem signalling_result_classified_witness :
    ((newConn badVersionEnv "" 2).outcome = Outcome.exited 1 ∧
      stderrText (newConn badVersionEnv "" 2).trace =
        "the signalling server is running an incompatable version.\ntry upgrading the client:\n\n    go get webwormhole.io/cmd/ww\n\n" ∧
      ∀ e ∈ (newConn badVersionEnv "" 2).trace, e.isDial = false) ∧
    ((newConn badVersionEnv "7-guitar-spark" 2).outcome = Outcome.exited 1 ∧
      stderrText (newConn badVersionEnv "7-guitar-spark" 2).trace =
        "the signalling server is running an incompatable version.\ntry upgrading the client:\n\n    go get webwormhole.io/cmd/ww\n\n" ∧
      ∀ e ∈ (newConn badVersionEnv "7-guitar-spark" 2).trace, e.isDial = false) ∧
    Event.dialDataChannel "7" (fillBuffer (2 : Int).toNat [7, 9])
      ∈ (newConn (okEnv grid2) "" 2).trace :=
  ⟨((signalling_result_classified badVersionEnv "" 2).1 rfl (by decide) [7, 9] rfl).1 rfl,
    ((signalling_result_classified badVersionEnv "7-guitar-spark" 2).2 (by decide) [7, 9]
      (by decide)).1 rfl,
    ((signalling_result_classified (okEnv grid2) "" 2).1 rfl (by decide) [7, 9] rfl).2.2
      "7" rfl⟩

theorem create_reaches_dial (env : Env W C U) (length : Int) (w : W) (p : Bytes)
    (hm : Event.dialDataChannel w p ∈ (newConn env "" length).trace) :
    newConn env "" length =
      dialAndReport env
        ([Event.readFull length.toNat, Event.wormholeNew env.sigserv]
          ++ printcode env (env.Slot w ++ "-" ++ Join (env.Encode p) "-"))
        w p := by
  have hpre : ∀ e ∈ [Event.readFull (W := W) length.toNat, Event.wormholeNew env.sigserv],
      e.isDial = false := by
    intro e he
    simp only [List.mem_cons, List.mem_singleton, List.not_mem_nil, or_false] at he
    rcases he with rfl | rfl <;> rfl
  cases h0 : makeSucceeds env length with
  | false => simp [newConn, h0] at hm
  | true =>
    cases hread : env.ReadFull length.toNat with
    | error err =>
      rw [newConn_create_read_error env length h0 err hread] at hm
      refine (fatalf_trace_no_dial _ _ w p ?_ hm).elim
      intro e he
      simp only [List.mem_singleton] at he
      subst he
      rfl
    | ok bytes =>
      cases hnew : env.New env.sigserv with
      | error err =>
        cases err with
        | ErrBadVersion =>
          rw [newConn_create_bad_version env length h0 bytes hread hnew] at hm
          exact (fatalf_trace_no_dial _ _ w p hpre hm).elim
        | other text =>
          rw [newConn_create_new_error env length h0 bytes hread text hnew] at hm
          exact (fatalf_trace_no_dial _ _ w p hpre hm).elim
      | ok w0 =>
        rw [newConn_create_new_ok env length h0 bytes hread w0 hnew] at hm ⊢
        obtain ⟨s, hs⟩ := dialAndReport_trace env
          ([Event.readFull length.toNat, Event.wormholeNew env.sigserv]
            ++ printcode env (env.Slot w0 ++ "-"
              ++ Join (env.Encode (fillBuffer length.toNat bytes)) "-"))
          w0 (fillBuffer length.toNat bytes)
        rw [hs] at hm
        have hwp : w = w0 ∧ p = fillBuffer length.toNat bytes := by
          simp only [List.mem_append, List.mem_cons, List.mem_singleton, List.not_mem_nil,
            or_false, Event.dialDataChannel.injEq, reduceCtorEq] at hm
          rcases hm with (hm | hm) | hm
          · rcases hm with hm | hm
          · have := isDial_of_isWrite _ (printcode_all_writes env _ _ hm)
            simp [Event.isDial] at this
          · exact hm
        obtain ⟨rfl, rfl⟩ := hwp
        rfl

theorem create_dial_decomposition (env : Env W C U) (length : Int) (w : W) (p : Bytes)
    (hm : Event.dialDataChannel w p ∈ (newConn env "" length).trace) :
    ∃ s, (newConn env "" length).trace =
      [Event.readFull length.toNat, Event.wormholeNew env.sigserv]
        ++ printcode env (env.Slot w ++ "-" ++ Join (env.Encode p) "-")
        ++ [Event.dialDataChannel w p, Event.stderr s] := by
  rw [create_reaches_dial env length w p hm]
  exact dialAndReport_trace env _ w p

theorem join_reaches_dial (env : Env W C U) (code : String) (length : Int) (hcode : code ≠ "")
    (w : W) (p : Bytes) (hm : Event.dialDataChannel w p ∈ (newConn env code length).trace) :
    newConn env code length =
      dialAndReport env [Event.wormholeJoin env.sigserv ((Split code '-').headD "")] w p := by
  have hpre : ∀ e ∈ [Event.wormholeJoin (W := W) env.sigserv ((Split code '-').headD "")],
      e.isDial = false := by
    intro e he
    simp only [List.mem_singleton] at he
    subst he
    rfl
  cases hdec : env.Decode (Split code '-').tail with
  | none =>
    rw [newConn_join_decode_nil env code length hcode _ _ (Split_cons code) hdec] at hm
    exact (fatalf_trace_no_dial _ _ w p (by simp) hm).elim
  | some pass =>
    cases hjoin : env.JoinSession env.sigserv ((Split code '-').headD "") with
    | error err =>
      cases err with
      | ErrBadVersion =>
        rw [newConn_join_bad_version env code length hcode _ _ (Split_cons code) pass hdec
          hjoin] at hm
        exact (fatalf_trace_no_dial _ _ w p hpre hm).elim
      | other text =>
        rw [newConn_join_join_error env code length hcode _ _ (Split_cons code) pass hdec text
          hjoin] at hm
        exact (fatalf_trace_no_dial _ _ w p hpre hm).elim
    | ok w0 =>
      rw [newConn_join_join_ok env code length hcode _ _ (Split_cons code) pass hdec w0 hjoin]
        at hm ⊢
      obtain ⟨s, hs⟩ := dialAndReport_trace env
        [Event.wormholeJoin env.sigserv ((Split code '-').headD "")] w0 pass
      rw [hs] at hm
      simp only [List.mem_append, List.mem_cons, List.mem_singleton, List.not_mem_nil,
        or_false, Event.dialDataChannel.injEq, reduceCtorEq, false_or] at hm
      obtain ⟨rfl, rfl⟩ := hm
      rfl

theorem newConn_alloc_failure (env : Env W C U) (length : Int)
    (h : makeSucceeds env length = false) :
    newConn env "" length = ⟨[], Outcome.panicked⟩ := by
  simp [newConn, h]

theorem makeSucceeds_maxInt64 (env : Env W C U) :
    makeSucceeds env 9223372036854775807 = false := by
  simp [makeSucceeds, maxAlloc]

theorem makeSucceeds_negative (env : Env W C U) (length : Int) (h : length < 0) :
    makeSucceeds env length = false := by
  have : ¬ 0 ≤ length := by omega
  simp [makeSucceeds, this]

theorem readFull_mem_iff (env : Env W C U) (length : Int) :
    Event.readFull length.toNat ∈ (newConn env "" length).trace
      ↔ makeSucceeds env length = true := by
  cases h0 : makeSucceeds env length with
  | false => simp [newConn_alloc_failure env length h0]
  | true =>
    simp only [iff_true]
    cases hread : env.ReadFull length.toNat with
    | error err =>
      rw [newConn_create_read_error env length h0 err hread]
      simp [fatalf]
    | ok bytes =>
      cases hnew : env.New env.sigserv with
      | error err =>
        cases err with
        | ErrBadVersion =>
          rw [newConn_create_bad_version env length h0 bytes hread hnew]
          simp [fatalf]
        | other text =>
          rw [newConn_create_new_error env length h0 bytes hread text hnew]
          simp [fatalf]
      | ok w =>
        rw [newConn_create_new_ok env length h0 bytes hread w hnew]
        obtain ⟨s, hs⟩ := dialAndReport_trace env
          ([Event.readFull length.toNat, Event.wormholeNew env.sigserv]
            ++ printcode env (env.Slot w ++ "-"
              ++ Join (env.Encode (fillBuffer length.toNat bytes)) "-"))
          w (fillBuffer length.toNat bytes)
        rw [hs]
        simp

theorem join_trace_cases (env : Env W C U) (code : String) (length : Int) (hcode : code ≠ "") :
    (∃ s, (newConn env code length).trace = [Event.stderr s]) ∨
    (∃ slot s, (newConn env code length).trace
      = [Event.wormholeJoin env.sigserv slot, Event.stderr s]) ∨
    (∃ slot w p s, (newConn env code length).trace
      = [Event.wormholeJoin env.sigserv slot, Event.dialDataChannel w p, Event.stderr s]) := by
  cases hdec : env.Decode (Split code '-').tail with
  | none =>
    rw [newConn_join_decode_nil env code length hcode _ _ (Split_cons code) hdec]
    exact Or.inl ⟨_, rfl⟩
  | some pass =>
    cases hjoin : env.JoinSession env.sigserv ((Split code '-').headD "") with
    | error err =>
      cases err with
      | ErrBadVersion =>
        rw [newConn_join_bad_version env code length hcode _ _ (Split_cons code) pass hdec
          hjoin]
        exact Or.inr (Or.inl ⟨_, _, rfl⟩)
      | other text =>
        rw [newConn_join_join_error env code length hcode _ _ (Split_cons code) pass hdec text
          hjoin]
        exact Or.inr (Or.inl ⟨_, _, rfl⟩)
    | ok w =>
      rw [newConn_join_join_ok env code length hcode _ _ (Split_cons code) pass hdec w hjoin]
      obtain ⟨s, hs⟩ := dialAndReport_trace env
        [Event.wormholeJoin env.sigserv ((Split code '-').headD "")] w pass
      exact Or.inr (Or.inr ⟨_, w, pass, s, hs⟩)

theorem printcode_head_mem (env : Env W C U) (code : String) :
    Event.stderr (code ++ "\n") ∈ printcode env code := by
  unfold printcode
  exact List.mem_cons_self _ _

/-- C7: after a successful channel dial `newConn` writes exactly one more line, the
classification `connected: relay` when `IsRelay` holds and `connected: direct` otherwise,
and returns the channel: this holds of every run whose trace holds a dial that succeeded,
and no other dial precedes it.  On the create path the events before the dial contain the
write of the composed code `Slot + "-" + words joined by "-"` and no dial; on the join
path the whole trace is the join, the dial and the classification line.  On the create
path the buffer of `length` bytes is taken to be allocated.  In particular, with secret
length 2, a service that returns a slot and a dialer that returns a channel
that is not relayed, the output contains the composed code and `connected: direct`, and
the run returns the channel instead of exiting. -/
theorem dial_success_reports_classification (env : Env W C U) (code : String) (length : Int) :
    (∀ w p c w1, Event.dialDataChannel w p ∈ (newConn env code length).trace →
      env.DialDataChannel w p = .ok (c, w1) →
      (newConn env code length).outcome = Outcome.returned c ∧
      ∃ pre, (newConn env code length).trace =
          pre ++ [Event.dialDataChannel w p,
            Event.stderr (if env.IsRelay w1 then "connected: relay\n"
              else "connected: direct\n")] ∧
        (∀ e ∈ pre, e.isDial = false)) ∧
    (code = "" → makeSucceeds env length = true → ∀ bytes w c w1,
      env.ReadFull length.toNat = .ok bytes → env.New env.sigserv = .ok w →
      env.DialDataChannel w (fillBuffer length.toNat bytes) = .ok (c, w1) →
      (newConn env code length).outcome = Outcome.returned c ∧
      ∃ pre, (newConn env code length).trace =
          pre ++ [Event.dialDataChannel w (fillBuffer length.toNat bytes),
            Event.stderr (if env.IsRelay w1 then "connected: relay\n"
              else "connected: direct\n")] ∧
        (∀ e ∈ pre, e.isDial = false) ∧
        Event.stderr (env.Slot w ++ "-"
          ++ Join (env.Encode (fillBuffer length.toNat bytes)) "-" ++ "\n") ∈ pre) ∧
    (code ≠ "" → ∀ pass w c w1,
      env.Decode (Split code '-').tail = some pass →
      env.JoinSession env.sigserv ((Split code '-').headD "") = .ok w →
      env.DialDataChannel w pass = .ok (c, w1) →
      (newConn env code length).outcome = Outcome.returned c ∧
      (newConn env code length).trace =
        [Event.wormholeJoin env.sigserv ((Split code '-').headD ""),
          Event.dialDataChannel w pass,
          Event.stderr (if env.IsRelay w1 then "connected: relay\n"
            else "connected: direct\n")]) ∧
    (code = "" → length = 2 → makeSucceeds env 2 = true → ∀ bytes w c w1,
      env.ReadFull 2 = .ok bytes → env.New env.sigserv = .ok w →
      env.DialDataChannel w (fillBuffer 2 bytes) = .ok (c, w1) → env.IsRelay w1 = false →
      (fillBuffer 2 bytes).length = 2 ∧
      Event.stderr (env.Slot w ++ "-" ++ Join (env.Encode (fillBuffer 2 bytes)) "-" ++ "\n")
        ∈ (newConn env code length).trace ∧
      Event.stderr "connected: direct\n" ∈ (newConn env code length).trace ∧
      (newConn env code length).outcome = Outcome.returned c) := by
  have hcreate : ∀ (length : Int), makeSucceeds env length = true → ∀ bytes w c w1,
      env.ReadFull length.toNat = .ok bytes → env.New env.sigserv = .ok w →
      env.DialDataChannel w (fillBuffer length.toNat bytes) = .ok (c, w1) →
      (newConn env "" length).outcome = Outcome.returned c ∧
      ∃ pre, (newConn env "" length).trace =
          pre ++ [Event.dialDataChannel w (fillBuffer length.toNat bytes),
            Event.stderr (if env.IsRelay w1 then "connected: relay\n"
              else "connected: direct\n")] ∧
        (∀ e ∈ pre, e.isDial = false) ∧
        Event.stderr (env.Slot w ++ "-"
          ++ Join (env.Encode (fillBuffer length.toNat bytes)) "-" ++ "\n") ∈ pre := by
    intro length hmake bytes w c w1 hread hnew hdial
    rw [newConn_create_new_ok env length hmake bytes hread w hnew,
      dialAndReport_ok env _ w _ c w1 hdial]
    refine ⟨rfl, _, rfl, ?_, ?_⟩
    · intro e he
      simp only [List.cons_append, List.nil_append, List.mem_cons] at he
      rcases he with rfl | rfl | he
      · rfl
      · rfl
      · exact isDial_of_isWrite e (printcode_all_writes env _ e he)
    · exact List.mem_append_right _ (printcode_head_mem env _)
  refine ⟨?_, ?_, ?_, ?_⟩
  · intro w p c w1 hm hdial
    by_cases hcode : code = ""
    · subst hcode
      rw [create_reaches_dial env length w p hm, dialAndReport_ok env _ w _ c w1 hdial]
      refine ⟨rfl, _, rfl, ?_⟩
      intro e he
      simp only [List.cons_append, List.nil_append, List.mem_cons] at he
      rcases he with rfl | rfl | he
      · rfl
      · rfl
      · exact isDial_of_isWrite e (printcode_all_writes env _ e he)
    · rw [join_reaches_dial env code length hcode w p hm, dialAndReport_ok env _ w _ c w1 hdial]
      refine ⟨rfl, _, rfl, ?_⟩
      intro e he
      simp only [List.mem_singleton] at he
      subst he
      rfl
  · intro hcode hmake
    subst hcode
    exact hcreate length hmake
  · intro hcode pass w c w1 hdec hjoin hdial
    rw [newConn_join_join_ok env code length hcode _ _ (Split_cons code) pass hdec w hjoin,
      dialAndReport_ok env _ w _ c w1 hdial]
    exact ⟨rfl, rfl⟩
  · intro hcode hlen hmake bytes w c w1 hread hnew hdial hrelay
    subst hcode
    subst hlen
    obtain ⟨hout, pre, htrace, -, hmem⟩ := hcreate 2 hmake bytes w c w1 hread hnew hdial
    refine ⟨fillBuffer_length 2 bytes, ?_, ?_, hout⟩
    · rw [htrace]
      exact List.mem_append_left _ hmem
    · rw [htrace, hrelay]
      simp

/-- The create path with secret length 2, slot `7`, words `guitar` and `spark`, and a
direct channel; and the join path on the code `7-guitar-spark`. -/
theorem dial_success_reports_classification_witness :
    ((fillBuffer 2 [7, 9]).length = 2 ∧
      Event.stderr ((okEnv grid2).Slot "7" ++ "-"
          ++ Join ((okEnv grid2).Encode (fillBuffer 2 [7, 9])) "-" ++ "\n")
        ∈ (newConn (okEnv grid2) "" 2).trace ∧
      Event.stderr "connected: direct\n" ∈ (newConn (okEnv grid2) "" 2).trace ∧
      (newConn (okEnv grid2) "" 2).outcome = Outcome.returned 1) ∧
    ((newConn (okEnv grid2) "7-guitar-spark" 2).outcome = Outcome.returned 1 ∧
      (newConn (okEnv grid2) "7-guitar-spark" 2).trace =
        [Event.wormholeJoin (okEnv grid2).sigserv ((Split "7-guitar-spark" '-').headD ""),
          Event.dialDataChannel "7" [7, 9],
          Event.stderr (if (okEnv grid2).IsRelay "7" then "connected: relay\n"
            else "connected: direct\n")]) :=
  ⟨(dial_success_reports_classification (okEnv grid2) "" 2).2.2.2 rfl rfl (by decide)
      [7, 9] "7" 1 "7" rfl rfl rfl rfl,
    (dial_success_reports_classification (okEnv grid2) "7-guitar-spark" 2).2.2.1 (by decide)
      [7, 9] "7" 1 "7" (by decide) rfl rfl⟩

/-- C8, as stated, fails in three ways.  `url.Parse` reports an error on the signalling
address, yet no error line is written, the process does not exit with a non-zero status,
and `newConn` goes on to dial and returns the channel.  When the service reports an
incompatible version the message written is not a single line but five.  When the error
text of a failed call has two lines, so has the message. -/
theorem locator_error_not_fatal_counterexample :
    (badUrlEnv.Parse badUrlEnv.sigserv = .error "invalid URL" ∧
      newConn badUrlEnv "" 2 =
        ⟨[Event.readFull 2, Event.wormholeNew "https://wrmhl.link/",
            Event.stderr "7-guitar-spark\n",
            Event.dialDataChannel "7" [7, 9], Event.stderr "connected: direct\n"],
          Outcome.returned 1⟩) ∧
    (badVersionEnv.New badVersionEnv.sigserv = .error SigError.ErrBadVersion ∧
      newConn badVersionEnv "" 2 =
        ⟨[Event.readFull 2, Event.wormholeNew "https://wrmhl.link/",
            Event.stderr "the signalling server is running an incompatable version.\ntry upgrading the client:\n\n    go get webwormhole.io/cmd/ww\n\n"],
          Outcome.exited 1⟩ ∧
      (lines (stderrText (newConn badVersionEnv "" 2).trace)).length = 6) ∧
    (twoLineErrEnv.New twoLineErrEnv.sigserv
        = .error (SigError.other "dial failed\nproxy failed") ∧
      newConn twoLineErrEnv "" 2 =
        ⟨[Event.readFull 2, Event.wormholeNew "https://wrmhl.link/",
            Event.stderr "could not dial: dial failed\nproxy failed\n"],
          Outcome.exited 1⟩ ∧
      (lines (stderrText (newConn twoLineErrEnv "" 2).trace)).length = 3) :=
  ⟨⟨rfl, by decide⟩, ⟨rfl, by decide, by decide⟩, ⟨rfl, by decide, by decide⟩⟩

/-- C8, amended: an error from the secure random read, the signalling create or join, the
mnemonic decode (nil result) or the channel dial makes the process write exactly one
`fatalf` message as its last action and exit with status 1, performing no later step (on
the create path these calls are made once the buffer is allocated).  The message is
`could not generate password: err`, `could not dial: err` or `could not decode password`,
a single line whenever the error text `err` contains no newline; for the
incompatible-version condition it is the fixed message, which spans several lines.
An error from `url.Parse` or `qr.Encode` inside `printcode` is not reported: `printcode`
writes only the code line and returns, and `newConn` continues to the channel dial. -/
theorem errors_fatal_except_in_printcode (env : Env W C U) (code : String) (length : Int) :
    (code = "" → makeSucceeds env length = true →
      (∀ err, env.ReadFull length.toNat = .error err →
        newConn env code length =
          ⟨[Event.readFull length.toNat,
              Event.stderr ("could not generate password: " ++ err ++ "\n")],
            Outcome.exited 1⟩) ∧
      (∀ bytes, env.ReadFull length.toNat = .ok bytes →
        (env.New env.sigserv = .error SigError.ErrBadVersion →
          newConn env code length =
            ⟨[Event.readFull length.toNat, Event.wormholeNew env.sigserv,
                Event.stderr (badVersionMessage ++ "\n")],
              Outcome.exited 1⟩) ∧
        (∀ err, env.New env.sigserv = .error (SigError.other err) →
          newConn env code length =
            ⟨[Event.readFull length.toNat, Event.wormholeNew env.sigserv,
                Event.stderr ("could not dial: " ++ err ++ "\n")],
              Outcome.exited 1⟩) ∧
        (∀ w, env.New env.sigserv = .ok w →
          (∀ err, env.DialDataChannel w (fillBuffer length.toNat bytes) = .error err →
            newConn env code length =
              ⟨[Event.readFull length.toNat, Event.wormholeNew env.sigserv]
                  ++ printcode env (env.Slot w ++ "-"
                      ++ Join (env.Encode (fillBuffer length.toNat bytes)) "-")
                  ++ [Event.dialDataChannel w (fillBuffer length.toNat bytes),
                    Event.stderr ("could not dial: " ++ err ++ "\n")],
                Outcome.exited 1⟩) ∧
          (((∃ err, env.Parse env.sigserv = .error err) ∨
              (∃ u0 err, env.Parse env.sigserv = .ok u0 ∧
                env.qrEncode (env.urlString (env.setFragment u0 (env.Slot w ++ "-"
                  ++ Join (env.Encode (fillBuffer length.toNat bytes)) "-"))) = .error err)) →
            printcode env (env.Slot w ++ "-"
                ++ Join (env.Encode (fillBuffer length.toNat bytes)) "-")
              = [Event.stderr (env.Slot w ++ "-"
                  ++ Join (env.Encode (fillBuffer length.toNat bytes)) "-" ++ "\n")] ∧
            Event.dialDataChannel w (fillBuffer length.toNat bytes)
              ∈ (newConn env code length).trace)))) ∧
    (code ≠ "" →
      (env.Decode (Split code '-').tail = none →
        newConn env code length =
          ⟨[Event.stderr "could not decode password\n"], Outcome.exited 1⟩) ∧
      (∀ pass, env.Decode (Split code '-').tail = some pass →
        (env.JoinSession env.sigserv ((Split code '-').headD "")
            = .error SigError.ErrBadVersion →
          newConn env code length =
            ⟨[Event.wormholeJoin env.sigserv ((Split code '-').headD ""),
                Event.stderr (badVersionMessage ++ "\n")],
              Outcome.exited 1⟩) ∧
        (∀ err, env.JoinSession env.sigserv ((Split code '-').headD "")
            = .error (SigError.other err) →
          newConn env code length =
            ⟨[Event.wormholeJoin env.sigserv ((Split code '-').headD ""),
                Event.stderr ("could not dial: " ++ err ++ "\n")],
              Outcome.exited 1⟩) ∧
        (∀ w err, env.JoinSession env.sigserv ((Split code '-').headD "") = .ok w →
          env.DialDataChannel w pass = .error err →
          newConn env code length =
            ⟨[Event.wormholeJoin env.sigserv ((Split code '-').headD ""),
                Event.dialDataChannel w pass,
                Event.stderr ("could not dial: " ++ err ++ "\n")],
              Outcome.exited 1⟩))) ∧
    (∀ err : String, '\n' ∉ err.data →
      '\n' ∉ ("could not generate password: " ++ err).data ∧
      '\n' ∉ ("could not dial: " ++ err).data) ∧
    '\n' ∉ ("could not decode password" : String).data ∧
    (lines (badVersionMessage ++ "\n")).length = 6 := by
  refine ⟨?_, ?_, ?_, by decide, by decide⟩
  · intro hcode h0
    subst hcode
    refine ⟨?_, ?_⟩
    · intro err hread
      rw [newConn_create_read_error env length h0 err hread]
      rfl
    · intro bytes hread
      refine ⟨?_, ?_, ?_⟩
      · intro hnew
        rw [newConn_create_bad_version env length h0 bytes hread hnew]
        rfl
      · intro err hnew
        rw [newConn_create_new_error env length h0 bytes hread err hnew]
        rfl
      · intro w hnew
        rw [newConn_create_new_ok env length h0 bytes hread w hnew]
        refine ⟨?_, ?_⟩
        · intro err hdial
          rw [dialAndReport_error env _ w _ err hdial]
        · intro hsilent
          refine ⟨?_, dialAndReport_mem _ _ _ _⟩
          rcases hsilent with ⟨err, hp⟩ | ⟨u0, err, hp, he⟩
          · exact printcode_of_parse_error env _ err hp
          · exact printcode_of_encode_error env _ u0 err hp he
  · intro hcode
    refine ⟨?_, ?_⟩
    · intro hdec
      rw [newConn_join_decode_nil env code length hcode _ _ (Split_cons code) hdec]
      rfl
    · intro pass hdec
      refine ⟨?_, ?_, ?_⟩
      · intro hjoin
        rw [newConn_join_bad_version env code length hcode _ _ (Split_cons code) pass hdec
          hjoin]
        rfl
      · intro err hjoin
        rw [newConn_join_join_error env code length hcode _ _ (Split_cons code) pass hdec err
          hjoin]
        rfl
      · intro w err hjoin hdial
        rw [newConn_join_join_ok env code length hcode _ _ (Split_cons code) pass hdec w hjoin,
          dialAndReport_error env _ w _ err hdial]
        rfl
  · intro err herr
    have h1 : '\n' ∉ ("could not generate password: " : String).data := by decide
    have h2 : '\n' ∉ ("could not dial: " : String).data := by decide
    simp only [String.data_append, List.mem_append, not_or]
    exact ⟨⟨h1, herr⟩, ⟨h2, herr⟩⟩

/-- A failing random source, a failing locator parse on the create path, and an
undecodable code on the join path. -/
theorem errors_fatal_except_in_printcode_witness :
    newConn noRandEnv "" 2 =
        ⟨[Event.readFull (2 : Int).toNat,
            Event.stderr ("could not generate password: " ++ "unexpected EOF" ++ "\n")],
          Outcome.exited 1⟩ ∧
    (printcode badUrlEnv (badUrlEnv.Slot "7" ++ "-"
          ++ Join (badUrlEnv.Encode (fillBuffer (2 : Int).toNat [7, 9])) "-")
        = [Event.stderr (badUrlEnv.Slot "7" ++ "-"
            ++ Join (badUrlEnv.Encode (fillBuffer (2 : Int).toNat [7, 9])) "-" ++ "\n")] ∧
      Event.dialDataChannel "7" (fillBuffer (2 : Int).toNat [7, 9])
        ∈ (newConn badUrlEnv "" 2).trace) ∧
    newConn (okEnv grid2) "7-guitar-spar" 2 =
        ⟨[Event.stderr "could not decode password\n"], Outcome.exited 1⟩ :=
  ⟨((errors_fatal_except_in_printcode noRandEnv "" 2).1 rfl (by decide)).1
      "unexpected EOF" rfl,
    ((((errors_fatal_except_in_printcode badUrlEnv "" 2).1 rfl (by decide)).2
      [7, 9] rfl).2.2 "7" rfl).2 (Or.inl ⟨"invalid URL", rfl⟩),
    ((errors_fatal_except_in_printcode (okEnv grid2) "7-guitar-spar" 2).2.1 (by decide)).1
      (by decide)⟩

/-- C9, as stated, fails: when the matrix encoder reports an error the create path still
reaches the channel dial, and before the dial only the code line has been written; no
matrix block was rendered. -/
theorem dial_without_matrix_block_counterexample :
    noMatrixEnv.qrEncode "https://wrmhl.link/#7-guitar-spark" = .error "text too long" ∧
    (newConn noMatrixEnv "" 2).trace =
      [Event.readFull 2, Event.wormholeNew "https://wrmhl.link/",
        Event.stderr "7-guitar-spark\n",
        Event.dialDataChannel "7" [7, 9], Event.stderr "connected: direct\n"] :=
  ⟨rfl, by decide⟩

/-- C9, amended: on the create path, in every run that reaches the channel dial, all of
`printcode`'s output for the composed code was written before the dialer was invoked, and
the dialer is invoked once (the output consists of writes only).  That output always starts with the code line; when the
locator parses and the matrix encoder returns a grid for the reference string (locator
with the code as fragment) it continues with the rendered block and the reference line;
when either of them reports an error it is the code line alone.  On the join path no
event before the last one is a write, so nothing is rendered. -/
theorem code_shown_before_dial (env : Env W C U) (code : String) (length : Int) :
    (code = "" → ∀ w p, Event.dialDataChannel w p ∈ (newConn env code length).trace →
      ∃ s, (newConn env code length).trace =
        [Event.readFull length.toNat, Event.wormholeNew env.sigserv]
          ++ printcode env (env.Slot w ++ "-" ++ Join (env.Encode p) "-")
          ++ [Event.dialDataChannel w p, Event.stderr s]) ∧
    (∀ c : String,
      (∃ rest, printcode env c = Event.stderr (c ++ "\n") :: rest) ∧
      (∀ e ∈ printcode env c, e.isWrite = true) ∧
      (∀ u0 q, env.Parse env.sigserv = .ok u0 →
        env.qrEncode (env.urlString (env.setFragment u0 c)) = .ok q →
        printcode env c = Event.stderr (c ++ "\n") ::
          (borderRow q ++ borderRow q ++ contentRowsFrom q q.Size 0
            ++ borderRow q ++ borderRow q
            ++ [Event.stderr (env.urlString (env.setFragment u0 c) ++ "\n")])) ∧
      (((∃ err, env.Parse env.sigserv = .error err) ∨
          (∃ u0 err, env.Parse env.sigserv = .ok u0 ∧
            env.qrEncode (env.urlString (env.setFragment u0 c)) = .error err)) →
        printcode env c = [Event.stderr (c ++ "\n")])) ∧
    (code ≠ "" → ∀ e ∈ (newConn env code length).trace.dropLast, e.isWrite = false) := by
  refine ⟨?_, ?_, ?_⟩
  · intro hcode w p hm
    subst hcode
    exact create_dial_decomposition env length w p hm
  · intro c
    refine ⟨⟨_, rfl⟩, printcode_all_writes env c, ?_, ?_⟩
    · intro u0 q hp he
      exact printcode_of_ok env c u0 q hp he
    · intro hsilent
      rcases hsilent with ⟨err, hp⟩ | ⟨u0, err, hp, he⟩
      · exact printcode_of_parse_error env _ err hp
      · exact printcode_of_encode_error env _ u0 err hp he
  · intro hcode e he
    rcases join_trace_cases env code length hcode with ⟨s, h⟩ | ⟨slot, s, h⟩ | ⟨slot, w, p, s, h⟩
    · rw [h] at he
      simp at he
    · rw [h] at he
      simp only [List.dropLast, List.mem_singleton] at he
      subst he
      rfl
    · rw [h] at he
      simp only [List.dropLast, List.mem_cons, List.mem_singleton, List.not_mem_nil,
        or_false] at he
      rcases he with rfl | rfl <;> rfl

/-- The create path of `okEnv grid2`, which reaches the dial, and the join path on the
code `7-guitar-spark`. -/
theorem code_shown_before_dial_witness :
    (∃ s, (newConn (okEnv grid2) "" 2).trace =
        [Event.readFull (2 : Int).toNat, Event.wormholeNew (okEnv grid2).sigserv]
          ++ printcode (okEnv grid2)
              ((okEnv grid2).Slot "7" ++ "-" ++ Join ((okEnv grid2).Encode [7, 9]) "-")
          ++ [Event.dialDataChannel "7" [7, 9], Event.stderr s]) ∧
    (∀ e ∈ (newConn (okEnv grid2) "7-guitar-spark" 2).trace.dropLast, e.isWrite = false) :=
  ⟨(code_shown_before_dial (okEnv grid2) "" 2).1 rfl "7" [7, 9] (by decide),
    (code_shown_before_dial (okEnv grid2) "7-guitar-spark" 2).2.2 (by decide)⟩

end WW
